import Mathlib

/-!
Verification development for two UI components of the repository:
the tool-enablement selector (`crates/assistant2/src/tool_selector.rs`)
and the incoming-call notification (`crates/collab_ui/src/incoming_call_notification.rs`).

The tool registry (`ToolWorkingSet`), the built-in profiles and the scripting
tool's name live in crates outside the excerpt; their operations are modelled
from the spec and marked as such.  The menu construction, profile resolution,
the incoming-call event loop and the call response handler are translated from
the source.
-/

/-- Origin of a tool: built-in native tools or an external context server,
translated from the `ToolSource` enum used by `tool_selector.rs`. -/
inductive ToolSource where
  | Native : ToolSource
  | ContextServer (id : String) : ToolSource
deriving DecidableEq

/-- Modelled from the spec: the scripting pseudo-tool's well-known name
(`ScriptingTool::NAME`, defined in the `scripting_tool` crate, outside the
excerpt).  Its concrete value is immaterial to the properties proved here. -/
def scriptingToolName : String := "run-script"

/-- An agent profile: display name plus a tool map from tool name to enabled
flag, as used by `tool_selector.rs` (`AgentProfile` of `assistant_settings`). -/
structure AgentProfile where
  name : String
  tools : List (String × Bool)
deriving DecidableEq

/-- Modelled from the spec: the built-in read-only profile
(`AgentProfile::read_only`, defined in `assistant_settings`, outside the
excerpt). -/
def AgentProfile.read_only : AgentProfile :=
  { name := "Read-only", tools := [("read-file", true), ("list-directory", true)] }

/-- Modelled from the spec: the built-in code-writer profile
(`AgentProfile::code_writer`, defined in `assistant_settings`, outside the
excerpt). -/
def AgentProfile.code_writer : AgentProfile :=
  { name := "Code Writer", tools := [("read-file", true), ("edit-file", true)] }

/-- Modelled from the spec: the state of the tool registry (`ToolWorkingSet`,
defined in `assistant_tool`, outside the excerpt).  It records the tools known
per source in registry iteration order, the set of enabled (source, name)
pairs, and the scripting pseudo-tool's enabled flag, which the spec describes
as held outside the per-source maps. -/
structure ToolWorkingSet where
  toolsBySource : List (ToolSource × List String)
  enabled : Finset (ToolSource × String)
  scriptingEnabled : Bool
deriving DecidableEq

namespace ToolWorkingSet

/-- Modelled from the spec: `enable(source, names)` marks each named tool of
the source enabled; idempotent, last-write-wins. -/
def enable (s : ToolWorkingSet) (source : ToolSource) (names : List String) :
    ToolWorkingSet :=
  { s with enabled := s.enabled ∪ (names.map fun n => (source, n)).toFinset }

/-- Modelled from the spec: `disable(source, names)` marks each named tool of
the source disabled. -/
def disable (s : ToolWorkingSet) (source : ToolSource) (names : List String) :
    ToolWorkingSet :=
  { s with enabled := s.enabled \ (names.map fun n => (source, n)).toFinset }

/-- Modelled from the spec: `disable_source(source)` disables every tool from
the given source, leaving other sources untouched. -/
def disable_source (s : ToolWorkingSet) (source : ToolSource) : ToolWorkingSet :=
  { s with enabled := s.enabled.filter fun p => p.1 ≠ source }

/-- The tools the registry lists for a given source. -/
def sourceTools (s : ToolWorkingSet) (source : ToolSource) : List String :=
  (s.toolsBySource.filter fun st => st.1 = source).flatMap fun st => st.2

/-- Modelled from the spec: `enable_source(source)` enables every tool the
registry lists for the source. -/
def enable_source (s : ToolWorkingSet) (source : ToolSource) : ToolWorkingSet :=
  s.enable source (s.sourceTools source)

/-- All (source, name) pairs the registry knows, in iteration order. -/
def allToolPairs (s : ToolWorkingSet) : List (ToolSource × String) :=
  s.toolsBySource.flatMap fun st => st.2.map fun n => (st.1, n)

/-- Modelled from the spec: `enable_all_tools` enables every tool in every
source, including the scripting pseudo-tool. -/
def enable_all_tools (s : ToolWorkingSet) : ToolWorkingSet :=
  { s with enabled := s.enabled ∪ s.allToolPairs.toFinset, scriptingEnabled := true }

/-- Modelled from the spec: `disable_all_tools` disables every tool in every
source, including the scripting pseudo-tool. -/
def disable_all_tools (s : ToolWorkingSet) : ToolWorkingSet :=
  { s with enabled := ∅, scriptingEnabled := false }

/-- Modelled from the spec: `is_enabled(source, name)`. -/
def is_enabled (s : ToolWorkingSet) (source : ToolSource) (name : String) : Bool :=
  decide ((source, name) ∈ s.enabled)

/-- Modelled from the spec: `are_all_tools_enabled` is true iff every tool in
every source, including the scripting pseudo-tool, is enabled. -/
def are_all_tools_enabled (s : ToolWorkingSet) : Bool :=
  (s.allToolPairs.all fun pr => decide (pr ∈ s.enabled)) && s.scriptingEnabled

/-- Modelled from the spec: `are_all_tools_from_source_enabled(source)`. -/
def are_all_tools_from_source_enabled (s : ToolWorkingSet) (source : ToolSource) :
    Bool :=
  (s.sourceTools source).all fun n => decide ((source, n) ∈ s.enabled)

/-- Modelled from the spec: `enable_scripting_tool`. -/
def enable_scripting_tool (s : ToolWorkingSet) : ToolWorkingSet :=
  { s with scriptingEnabled := true }

/-- Modelled from the spec: `disable_scripting_tool`. -/
def disable_scripting_tool (s : ToolWorkingSet) : ToolWorkingSet :=
  { s with scriptingEnabled := false }

/-- Modelled from the spec: `is_scripting_tool_enabled`. -/
def is_scripting_tool_enabled (s : ToolWorkingSet) : Bool :=
  s.scriptingEnabled

end ToolWorkingSet

/-- The data each toggle entry's bound closure captures at menu-build time,
translated from the closures in `build_context_menu`. -/
inductive MenuAction where
  | activateProfile (profile : AgentProfile) : MenuAction
  | toggleAllTools (allToolsEnabled : Bool) : MenuAction
  | toggleSourceTools (source : ToolSource) (allFromSourceEnabled : Bool) : MenuAction
  | toggleTool (source : ToolSource) (name : String) (isEnabled : Bool) : MenuAction
deriving DecidableEq

/-- A rendered context-menu item, translated from the `ContextMenu` builder
calls in `build_context_menu`. -/
inductive MenuItem where
  | header (label : String) : MenuItem
  | separator : MenuItem
  | toggleableEntry (label : String) (checked : Bool) (action : MenuAction) : MenuItem
deriving DecidableEq

/-- The registry mutation a bound menu action performs when invoked,
translated from the closure bodies in `build_context_menu`. -/
def runAction : MenuAction → ToolWorkingSet → ToolWorkingSet
  | .activateProfile profile, tools =>
    let tools := tools.disable_source ToolSource.Native
    let tools := tools.disable_scripting_tool
    let tools := tools.enable ToolSource.Native
      (profile.tools.filterMap fun p => if p.2 then some p.1 else none)
    if profile.tools.any fun p => decide (p.1 = scriptingToolName) then
      tools.enable_scripting_tool
    else
      tools
  | .toggleAllTools allToolsEnabled, tools =>
    if allToolsEnabled then tools.disable_all_tools else tools.enable_all_tools
  | .toggleSourceTools source allFromSourceEnabled, tools =>
    if allFromSourceEnabled then tools.disable_source source
    else tools.enable_source source
  | .toggleTool source name isEnabled, tools =>
    if name = scriptingToolName then
      if isEnabled then tools.disable_scripting_tool else tools.enable_scripting_tool
    else
      if isEnabled then tools.disable source [name] else tools.enable source [name]

/-- The per-source tool entries of the menu, translated from the per-source
loop body of `build_context_menu`: each tool becomes a (source, name,
is-enabled) triple; for the native source the scripting pseudo-tool is pushed
as an extra triple and the list is sorted by name. -/
def sectionEntries (tool_set : ToolWorkingSet) (source : ToolSource)
    (tools : List String) : List (ToolSource × String × Bool) :=
  let ts := tools.map fun name => (source, name, tool_set.is_enabled source name)
  if ToolSource.Native = source then
    List.insertionSort (fun a b => a.2.1 ≤ b.2.1)
      (ts ++ [(ToolSource.Native, scriptingToolName,
        tool_set.is_scripting_tool_enabled)])
  else
    ts

/-- The header items preceding a source's tool entries, translated from
`build_context_menu`: native tools get a fixed header, a context server gets
its id as header plus a source-scoped all-tools toggle. -/
def sectionHeader (tool_set : ToolWorkingSet) : ToolSource → List MenuItem
  | ToolSource.Native => [MenuItem.separator, MenuItem.header "Zed Tools"]
  | ToolSource.ContextServer id =>
    let b := tool_set.are_all_tools_from_source_enabled (ToolSource.ContextServer id)
    [MenuItem.separator, MenuItem.header id,
      MenuItem.toggleableEntry "All Tools" b
        (MenuAction.toggleSourceTools (ToolSource.ContextServer id) b)]

/-- `build_context_menu`, translated from the source: profiles section, the
global all-tools toggle, then one section per source.  The registry state is
threaded through and returned so the build's effect on it is explicit: the
build only reads. -/
def buildContextMenu (profiles : List (String × AgentProfile))
    (tool_set : ToolWorkingSet) : List MenuItem × ToolWorkingSet :=
  let menu : List MenuItem := [MenuItem.header "Profiles"]
  let menu := menu ++ profiles.map fun p =>
    MenuItem.toggleableEntry p.2.name false (MenuAction.activateProfile p.2)
  let menu := menu ++ [MenuItem.separator]
  let tools_by_source := tool_set.toolsBySource
  let all_tools_enabled := tool_set.are_all_tools_enabled
  let menu := menu ++ [MenuItem.toggleableEntry "All Tools" all_tools_enabled
    (MenuAction.toggleAllTools all_tools_enabled)]
  let menu := menu ++ tools_by_source.flatMap fun st =>
    sectionHeader tool_set st.1 ++
      (sectionEntries tool_set st.1 st.2).map fun e =>
        MenuItem.toggleableEntry e.2.1 e.2.2 (MenuAction.toggleTool e.1 e.2.1 e.2.2)
  (menu, tool_set)

/-- Insertion into an ordered association list, modelling `BTreeMap::insert`:
keys stay strictly increasing, an existing binding for the key is replaced. -/
def btreeInsert (k : String) (v : AgentProfile) :
    List (String × AgentProfile) → List (String × AgentProfile)
  | [] => [(k, v)]
  | (k', v') :: rest =>
    if k < k' then (k, v) :: (k', v') :: rest
    else if k = k' then (k, v) :: rest
    else (k', v') :: btreeInsert k v rest

/-- `BTreeMap::contains_key`. -/
def btreeContainsKey (m : List (String × AgentProfile)) (k : String) : Bool :=
  m.any fun p => decide (p.1 = k)

/-- `BTreeMap::get`. -/
def btreeLookup (m : List (String × AgentProfile)) (k : String) :
    Option AgentProfile :=
  match m with
  | [] => none
  | (k', v) :: rest => if k = k' then some v else btreeLookup rest k

/-- `BTreeMap::from_iter`: later bindings for the same key win. -/
def btreeFromIter (l : List (String × AgentProfile)) :
    List (String × AgentProfile) :=
  l.foldl (fun m p => btreeInsert p.1 p.2 m) []

/-- `refresh_profiles`, translated from the source: build a map from the
user-configured profiles, then insert the built-in read-only and code-writer
profiles under their well-known ids when those ids are absent. -/
def refresh_profiles (userProfiles : List (String × AgentProfile)) :
    List (String × AgentProfile) :=
  let profiles := btreeFromIter userProfiles
  let profiles :=
    if btreeContainsKey profiles "read-only" then profiles
    else btreeInsert "read-only" AgentProfile.read_only profiles
  let profiles :=
    if btreeContainsKey profiles "code-writer" then profiles
    else btreeInsert "code-writer" AgentProfile.code_writer profiles
  profiles

/-- A collaborator's identity as used by the notification: id, login, optional
avatar (`User` of the `client` crate, outside the excerpt; fields taken from
their uses in `incoming_call_notification.rs`). -/
structure User where
  id : Nat
  github_login : String
  avatar : Option String
deriving DecidableEq

/-- An incoming call descriptor: the caller and an optional initial project id
(`IncomingCall` of the `client` crate, outside the excerpt; fields taken from
their uses in `incoming_call_notification.rs`). -/
structure IncomingCall where
  caller : User
  initial_project_id : Option Nat
deriving DecidableEq

/-- State of the incoming-call event loop spawned by `init`: the remembered
notification window id, the set of notification windows currently open, and a
counter supplying fresh window ids (`cx.add_window` returns a fresh id). -/
structure NotificationLoopState where
  notification_window : Option Nat
  open_windows : List Nat
  next_window_id : Nat
deriving DecidableEq

/-- The initial loop state: no window has been opened. -/
def initialLoopState : NotificationLoopState :=
  { notification_window := none, open_windows := [], next_window_id := 0 }

/-- One iteration of the `while let` body in `init`, translated from the
source: take and close the remembered notification window if any, then, when
the stream produced an actual call, open a fresh window and remember it. -/
def incomingCallStep (s : NotificationLoopState) (incoming_call : Option IncomingCall) :
    NotificationLoopState :=
  let s :=
    match s.notification_window with
    | some window_id =>
      { s with
        open_windows := s.open_windows.filter fun w => w ≠ window_id,
        notification_window := none }
    | none => s
  match incoming_call with
  | some _ =>
    { notification_window := some s.next_window_id,
      open_windows := s.open_windows ++ [s.next_window_id],
      next_window_id := s.next_window_id + 1 }
  | none => s

/-- The loop state after `init`'s loop has consumed a finite prefix of the
incoming-call stream. -/
def runNotificationLoop (events : List (Option IncomingCall)) :
    NotificationLoopState :=
  events.foldl incomingCallStep initialLoopState

/-- The `RespondToCall` action payload, translated from the source. -/
structure RespondToCall where
  accept : Bool
deriving DecidableEq

/-- The `JoinProject` global action payload, as dispatched by
`respond_to_call` (declared in the `workspace` crate, outside the excerpt;
fields taken from the dispatch site). -/
structure JoinProject where
  project_id : Nat
  follow_user_id : Nat
deriving DecidableEq

/-- Observable application state around one notification window: whether the
window is open, the join requests issued to the call service, how often the
user store's decline-call was invoked, the global actions dispatched, the log,
and any user-visible error surfaces (which this component never writes). -/
structure CallAppState where
  window_open : Bool
  join_requests : List IncomingCall
  decline_invocations : Nat
  dispatched_actions : List JoinProject
  log : List String
  error_dialogs : List String
deriving DecidableEq

/-- The synchronous part of `respond_to_call`, translated from the source: on
accept, issue the asynchronous join request; on decline, invoke the user
store's decline-call and log-and-swallow its error (`log_err`); either way,
close the window before returning.  `decline_result` stands for the result the
user store returns on the decline path. -/
def respond_to_call (call : IncomingCall) (action : RespondToCall)
    (decline_result : Except String Unit) (s : CallAppState) : CallAppState :=
  let s :=
    if action.accept then
      { s with join_requests := s.join_requests ++ [call] }
    else
      let s := { s with decline_invocations := s.decline_invocations + 1 }
      match decline_result with
      | Except.ok _ => s
      | Except.error e => { s with log := s.log ++ [e] }
  { s with window_open := false }

/-- The body of the task `respond_to_call` spawns on the accept path,
translated from the source: await the join; on success, dispatch the
join-project global action when the call carried an initial project id; a
join error is logged and swallowed (`detach_and_log_err`). -/
def join_task (call : IncomingCall) (join_result : Except String Unit)
    (s : CallAppState) : CallAppState :=
  match join_result with
  | Except.error e => { s with log := s.log ++ [e] }
  | Except.ok _ =>
    match call.initial_project_id with
    | some project_id =>
      { s with dispatched_actions := s.dispatched_actions ++
          [{ project_id := project_id, follow_user_id := call.caller.id }] }
    | none => s

/-- Invariant of the incoming-call event loop: the open notification windows
are exactly the remembered one (if any), and every open window id was issued
by the fresh-id counter. -/
def LoopInv (s : NotificationLoopState) : Prop :=
  s.open_windows =
    (match s.notification_window with
     | some w => [w]
     | none => [])
  ∧ ∀ w ∈ s.open_windows, w < s.next_window_id

theorem loopInv_initial : LoopInv initialLoopState :=
  ⟨rfl, by simp [initialLoopState]⟩

theorem loopInv_step (s : NotificationLoopState) (e : Option IncomingCall)
    (h : LoopInv s) : LoopInv (incomingCallStep s e) := by
  obtain ⟨h1, h2⟩ := h
  cases hw : s.notification_window with
  | none =>
    rw [hw] at h1
    cases e <;> simp_all [incomingCallStep, LoopInv, hw]
  | some w =>
    rw [hw] at h1
    cases e <;> simp_all [incomingCallStep, LoopInv, hw]

theorem loopInv_foldl (events : List (Option IncomingCall)) :
    ∀ s : NotificationLoopState, LoopInv s →
      LoopInv (events.foldl incomingCallStep s) := by
  induction events with
  | nil => intro s h; exact h
  | cons e rest ih => intro s h; exact ih _ (loopInv_step s e h)

theorem loopInv_run (events : List (Option IncomingCall)) :
    LoopInv (runNotificationLoop events) :=
  loopInv_foldl events initialLoopState loopInv_initial

/-- C3: in every reachable state of the incoming-call event loop at most one
notification window is open, and when the stream emits a new incoming call the
state after the step has exactly the freshly opened window, every previously
open window having been closed. -/
theorem incoming_call_single_window (events : List (Option IncomingCall)) :
    (runNotificationLoop events).open_windows.length ≤ 1
    ∧ ∀ call : IncomingCall,
        (incomingCallStep (runNotificationLoop events) (some call)).open_windows
          = [(runNotificationLoop events).next_window_id]
        ∧ ∀ w ∈ (runNotificationLoop events).open_windows,
            w ∉ (incomingCallStep (runNotificationLoop events) (some call)).open_windows := by
  obtain ⟨h1, h2⟩ := loopInv_run events
  constructor
  · rw [h1]
    cases (runNotificationLoop events).notification_window <;> simp
  · intro call
    cases hw : (runNotificationLoop events).notification_window with
    | none =>
      rw [hw] at h1
      refine ⟨by simp [incomingCallStep, hw, h1], ?_⟩
      intro w hwmem
      have hlt := h2 w hwmem
      simp [incomingCallStep, hw, h1]
      omega
    | some w0 =>
      rw [hw] at h1
      refine ⟨by simp [incomingCallStep, hw, h1], ?_⟩
      intro w hwmem
      have hlt := h2 w hwmem
      simp [incomingCallStep, hw, h1]
      omega

theorem incoming_call_single_window_witness :
    (runNotificationLoop
      [some { caller := { id := 1, github_login := "u", avatar := none },
              initial_project_id := some 7 },
       some { caller := { id := 2, github_login := "v", avatar := none },
              initial_project_id := none }]).open_windows.length ≤ 1 :=
  (incoming_call_single_window
    [some { caller := { id := 1, github_login := "u", avatar := none },
            initial_project_id := some 7 },
     some { caller := { id := 2, github_login := "v", avatar := none },
            initial_project_id := none }]).1

/-- C9: when the stream emits an empty value the step closes any displayed
notification window and opens none: the loop returns to the no-window
state. -/
theorem withdrawn_call_closes_window (events : List (Option IncomingCall)) :
    (incomingCallStep (runNotificationLoop events) none).open_windows = []
    ∧ (incomingCallStep (runNotificationLoop events) none).notification_window = none := by
  obtain ⟨h1, h2⟩ := loopInv_run events
  cases hw : (runNotificationLoop events).notification_window with
  | none =>
    rw [hw] at h1
    constructor <;> simp [incomingCallStep, hw, h1]
  | some w0 =>
    rw [hw] at h1
    constructor <;> simp [incomingCallStep, hw, h1]

/-- C6: accepting a call issues the asynchronous join request and closes the
window immediately, dispatching nothing yet; when the join later succeeds and
the call carried an initial project id, the join-project action with that
project id and the caller's user id is dispatched. -/
theorem accept_call_spec (call : IncomingCall) (decline_result : Except String Unit)
    (s s2 : CallAppState) (pid : Nat) (h : call.initial_project_id = some pid) :
    (respond_to_call call { accept := true } decline_result s).window_open = false
    ∧ (respond_to_call call { accept := true } decline_result s).join_requests
        = s.join_requests ++ [call]
    ∧ (respond_to_call call { accept := true } decline_result s).dispatched_actions
        = s.dispatched_actions
    ∧ (join_task call (Except.ok ()) s2).dispatched_actions
        = s2.dispatched_actions ++
            [{ project_id := pid, follow_user_id := call.caller.id }] := by
  refine ⟨rfl, rfl, rfl, ?_⟩
  simp [join_task, h]

theorem accept_call_spec_witness :
    ({ caller := { id := 2, github_login := "u", avatar := none },
       initial_project_id := some 7 } : IncomingCall).initial_project_id = some 7
    ∧ (join_task
        { caller := { id := 2, github_login := "u", avatar := none },
          initial_project_id := some 7 }
        (Except.ok ())
        { window_open := true, join_requests := [], decline_invocations := 0,
          dispatched_actions := [], log := [], error_dialogs := [] }).dispatched_actions
      = [{ project_id := 7, follow_user_id := 2 }] := by
  refine ⟨rfl, ?_⟩
  have h := accept_call_spec
    { caller := { id := 2, github_login := "u", avatar := none },
      initial_project_id := some 7 }
    (Except.ok ())
    { window_open := true, join_requests := [], decline_invocations := 0,
      dispatched_actions := [], log := [], error_dialogs := [] }
    { window_open := true, join_requests := [], decline_invocations := 0,
      dispatched_actions := [], log := [], error_dialogs := [] }
    7 rfl
  simpa using h.2.2.2

/-- C7: declining invokes the user store's decline-call and closes the window;
errors from the decline call and from the join request are logged and
swallowed, and neither response path writes a user-visible error surface or
leaves the window open. -/
theorem respond_errors_swallowed (call : IncomingCall)
    (decline_result : Except String Unit) (s s2 : CallAppState)
    (accept_flag : Bool) (emsg : String) :
    (respond_to_call call { accept := false } decline_result s).window_open = false
    ∧ (respond_to_call call { accept := false } decline_result s).decline_invocations
        = s.decline_invocations + 1
    ∧ (respond_to_call call { accept := false } (Except.error emsg) s).log
        = s.log ++ [emsg]
    ∧ (respond_to_call call { accept := accept_flag } decline_result s).error_dialogs
        = s.error_dialogs
    ∧ (respond_to_call call { accept := accept_flag } decline_result s).window_open
        = false
    ∧ (join_task call (Except.error emsg) s2).error_dialogs = s2.error_dialogs
    ∧ (join_task call (Except.error emsg) s2).log = s2.log ++ [emsg]
    ∧ (join_task call (Except.error emsg) s2).dispatched_actions
        = s2.dispatched_actions := by
  cases decline_result <;> cases accept_flag <;>
    simp [respond_to_call, join_task]

/-- C8: building the context menu does not mutate the tool registry: the
registry state threaded through the build comes back unchanged, while the
bound actions, run later, do mutate it. -/
theorem menu_build_no_mutation (profiles : List (String × AgentProfile))
    (s : ToolWorkingSet) :
    (buildContextMenu profiles s).2 = s
    ∧ ∃ (a : MenuAction) (s2 : ToolWorkingSet), runAction a s2 ≠ s2 := by
  refine ⟨rfl, MenuAction.toggleTool ToolSource.Native "a" false,
    { toolsBySource := [], enabled := ∅, scriptingEnabled := false }, ?_⟩
  decide

/-- C1: every profile in the resolved map has a menu entry whose bound action,
when run, leaves the native enabled set equal to exactly the tools the profile
marks enabled, sets the scripting pseudo-tool enabled iff the profile's tool
map contains the scripting tool's name, and leaves every non-native source's
enabled set unchanged. -/
theorem profile_activation_spec (profiles : List (String × AgentProfile))
    (s : ToolWorkingSet) (id : String) (profile : AgentProfile)
    (hmem : (id, profile) ∈ profiles) :
    MenuItem.toggleableEntry profile.name false (MenuAction.activateProfile profile)
        ∈ (buildContextMenu profiles s).1
    ∧ (∀ n : String,
        (ToolSource.Native, n) ∈ (runAction (MenuAction.activateProfile profile) s).enabled
          ↔ n ∈ profile.tools.filterMap fun p => if p.2 then some p.1 else none)
    ∧ (runAction (MenuAction.activateProfile profile) s).scriptingEnabled
        = (profile.tools.any fun p => decide (p.1 = scriptingToolName))
    ∧ ∀ (src : ToolSource) (n : String), src ≠ ToolSource.Native →
        ((src, n) ∈ (runAction (MenuAction.activateProfile profile) s).enabled
          ↔ (src, n) ∈ s.enabled) := by
  refine ⟨?_, ?_, ?_, ?_⟩
  · simp only [buildContextMenu, List.mem_append]
    refine Or.inl (Or.inl (Or.inl (Or.inr ?_)))
    exact List.mem_map.mpr ⟨(id, profile), hmem, rfl⟩
  · intro n
    cases hany : profile.tools.any fun p => decide (p.1 = scriptingToolName) <;>
      simp [runAction, hany, ToolWorkingSet.enable, ToolWorkingSet.disable_source,
        ToolWorkingSet.disable_scripting_tool, ToolWorkingSet.enable_scripting_tool]
  · cases hany : profile.tools.any fun p => decide (p.1 = scriptingToolName) <;>
      simp [runAction, hany, ToolWorkingSet.enable, ToolWorkingSet.disable_source,
        ToolWorkingSet.disable_scripting_tool, ToolWorkingSet.enable_scripting_tool]
  · intro src n hsrc
    cases hany : profile.tools.any fun p => decide (p.1 = scriptingToolName) <;>
      simp [runAction, hany, ToolWorkingSet.enable, ToolWorkingSet.disable_source,
        ToolWorkingSet.disable_scripting_tool, ToolWorkingSet.enable_scripting_tool,
        hsrc, Ne.symm hsrc]

theorem profile_activation_spec_witness :
    ("p", ({ name := "P", tools := [("read-file", true)] } : AgentProfile)) ∈
        [("p", ({ name := "P", tools := [("read-file", true)] } : AgentProfile))]
    ∧ MenuItem.toggleableEntry "P" false
        (MenuAction.activateProfile { name := "P", tools := [("read-file", true)] })
        ∈ (buildContextMenu [("p", { name := "P", tools := [("read-file", true)] })]
            { toolsBySource := [], enabled := ∅, scriptingEnabled := false }).1 :=
  ⟨by decide,
    (profile_activation_spec
      [("p", { name := "P", tools := [("read-file", true)] })]
      { toolsBySource := [], enabled := ∅, scriptingEnabled := false }
      "p" { name := "P", tools := [("read-file", true)] } (by decide)).1⟩

/-- C4: the menu carries an all-tools entry checked iff every tool of every
source and the scripting pseudo-tool are enabled; running its bound action
from an all-enabled snapshot disables everything, and from any other snapshot
enables everything. -/
theorem all_tools_toggle_spec (profiles : List (String × AgentProfile))
    (s : ToolWorkingSet) :
    MenuItem.toggleableEntry "All Tools" s.are_all_tools_enabled
        (MenuAction.toggleAllTools s.are_all_tools_enabled)
      ∈ (buildContextMenu profiles s).1
    ∧ (s.are_all_tools_enabled = true ↔
        (∀ pr ∈ s.allToolPairs, pr ∈ s.enabled) ∧ s.scriptingEnabled = true)
    ∧ (runAction (MenuAction.toggleAllTools s.are_all_tools_enabled) s).enabled
        = (if s.are_all_tools_enabled then (∅ : Finset (ToolSource × String))
           else s.enabled ∪ s.allToolPairs.toFinset)
    ∧ (runAction (MenuAction.toggleAllTools s.are_all_tools_enabled) s).scriptingEnabled
        = !s.are_all_tools_enabled := by
  refine ⟨?_, ?_, ?_, ?_⟩
  · simp only [buildContextMenu, List.mem_append]
    refine Or.inl (Or.inr ?_)
    simp
  · simp [ToolWorkingSet.are_all_tools_enabled, List.all_eq_true]
  · cases h : s.are_all_tools_enabled <;>
      simp [runAction, h, ToolWorkingSet.disable_all_tools,
        ToolWorkingSet.enable_all_tools]
  · cases h : s.are_all_tools_enabled <;>
      simp [runAction, h, ToolWorkingSet.disable_all_tools,
        ToolWorkingSet.enable_all_tools]

/-- C10: a per-tool entry's bound action captures the enabled state at
menu-build time, so running the same entry's action twice leaves the registry
exactly as one run does. -/
theorem tool_entry_idempotent (profiles : List (String × AgentProfile))
    (s s2 : ToolWorkingSet) (src : ToolSource) (name : String) (en : Bool)
    (hmem : MenuItem.toggleableEntry name en (MenuAction.toggleTool src name en)
        ∈ (buildContextMenu profiles s).1) :
    runAction (MenuAction.toggleTool src name en)
        (runAction (MenuAction.toggleTool src name en) s2)
      = runAction (MenuAction.toggleTool src name en) s2 := by
  by_cases hn : name = scriptingToolName <;> cases en <;>
    simp [runAction, hn, ToolWorkingSet.disable, ToolWorkingSet.enable,
      ToolWorkingSet.disable_scripting_tool, ToolWorkingSet.enable_scripting_tool,
      Finset.union_assoc, sdiff_idem]

theorem tool_entry_idempotent_witness :
    (MenuItem.toggleableEntry scriptingToolName false
        (MenuAction.toggleTool ToolSource.Native scriptingToolName false)
      ∈ (buildContextMenu []
          { toolsBySource := [(ToolSource.Native, [])], enabled := ∅,
            scriptingEnabled := false }).1)
    ∧ runAction (MenuAction.toggleTool ToolSource.Native scriptingToolName false)
        (runAction (MenuAction.toggleTool ToolSource.Native scriptingToolName false)
          { toolsBySource := [(ToolSource.Native, [])], enabled := ∅,
            scriptingEnabled := false })
      = runAction (MenuAction.toggleTool ToolSource.Native scriptingToolName false)
          { toolsBySource := [(ToolSource.Native, [])], enabled := ∅,
            scriptingEnabled := false } :=
  ⟨by simp [buildContextMenu, sectionEntries, sectionHeader,
      ToolWorkingSet.is_scripting_tool_enabled, List.insertionSort,
      List.orderedInsert],
    tool_entry_idempotent []
      { toolsBySource := [(ToolSource.Native, [])], enabled := ∅,
        scriptingEnabled := false }
      { toolsBySource := [(ToolSource.Native, [])], enabled := ∅,
        scriptingEnabled := false }
      ToolSource.Native scriptingToolName false
      (by simp [buildContextMenu, sectionEntries, sectionHeader,
        ToolWorkingSet.is_scripting_tool_enabled, List.insertionSort,
        List.orderedInsert])⟩

/-- C5: the native section's entry list is sorted alphabetically by tool name,
is a permutation of the registry's native tools plus exactly one synthetic
scripting entry, and a context-server section's entry list is the registry's
list in iteration order, unsorted. -/
theorem native_section_spec (s : ToolWorkingSet) (tools : List String)
    (id : String) (h : scriptingToolName ∉ tools) :
    List.Sorted (fun a b => a.2.1 ≤ b.2.1) (sectionEntries s ToolSource.Native tools)
    ∧ (sectionEntries s ToolSource.Native tools).countP
        (fun e => decide (e.2.1 = scriptingToolName)) = 1
    ∧ List.Perm (sectionEntries s ToolSource.Native tools)
        ((tools.map fun n => (ToolSource.Native, n, s.is_enabled ToolSource.Native n))
          ++ [(ToolSource.Native, scriptingToolName, s.is_scripting_tool_enabled)])
    ∧ sectionEntries s (ToolSource.ContextServer id) tools
        = tools.map fun n =>
            (ToolSource.ContextServer id, n,
              s.is_enabled (ToolSource.ContextServer id) n) := by
  haveI htot : IsTotal (ToolSource × String × Bool) fun a b => a.2.1 ≤ b.2.1 :=
    ⟨fun a b => le_total a.2.1 b.2.1⟩
  haveI htrans : IsTrans (ToolSource × String × Bool) fun a b => a.2.1 ≤ b.2.1 :=
    ⟨fun a b c hab hbc => le_trans hab hbc⟩
  have hperm :
      List.Perm (sectionEntries s ToolSource.Native tools)
        ((tools.map fun n => (ToolSource.Native, n, s.is_enabled ToolSource.Native n))
          ++ [(ToolSource.Native, scriptingToolName, s.is_scripting_tool_enabled)]) := by
    simp only [sectionEntries, if_pos rfl]
    exact List.perm_insertionSort _ _
  refine ⟨?_, ?_, hperm, ?_⟩
  · simp only [sectionEntries, if_pos rfl]
    exact List.sorted_insertionSort _ _
  · rw [hperm.countP_eq, List.countP_append]
    have hzero :
        (tools.map fun n =>
            (ToolSource.Native, n, s.is_enabled ToolSource.Native n)).countP
          (fun e => decide (e.2.1 = scriptingToolName)) = 0 := by
      rw [List.countP_eq_zero]
      intro e he
      obtain ⟨n, hn, rfl⟩ := List.mem_map.mp he
      simp only [decide_eq_true_eq]
      intro hc
      exact h (hc ▸ hn)
    rw [hzero]
    simp
  · simp [sectionEntries]

theorem native_section_spec_witness :
    scriptingToolName ∉ (["a", "b"] : List String)
    ∧ (sectionEntries
        { toolsBySource := [], enabled := ∅, scriptingEnabled := false }
        ToolSource.Native ["a", "b"]).countP
          (fun e => decide (e.2.1 = scriptingToolName)) = 1 :=
  ⟨by decide,
    (native_section_spec
      { toolsBySource := [], enabled := ∅, scriptingEnabled := false }
      ["a", "b"] "x" (by decide)).2.1⟩

theorem btreeInsert_lookup_self (k : String) (v : AgentProfile)
    (m : List (String × AgentProfile)) :
    btreeLookup (btreeInsert k v m) k = some v := by
  induction m with
  | nil => simp [btreeInsert, btreeLookup]
  | cons p rest ih =>
    obtain ⟨k2, v2⟩ := p
    by_cases h1 : k < k2
    · simp [btreeInsert, h1, btreeLookup]
    · by_cases h2 : k = k2
      · simp [btreeInsert, h1, h2, btreeLookup]
      · simp [btreeInsert, h1, h2, btreeLookup, ih]

theorem btreeInsert_lookup_ne (k k2 : String) (v2 : AgentProfile)
    (m : List (String × AgentProfile)) (h : k ≠ k2) :
    btreeLookup (btreeInsert k2 v2 m) k = btreeLookup m k := by
  induction m with
  | nil => simp [btreeInsert, btreeLookup, h]
  | cons p rest ih =>
    obtain ⟨k3, v3⟩ := p
    by_cases h1 : k2 < k3
    · simp [btreeInsert, h1, btreeLookup, h]
    · by_cases h2 : k2 = k3
      · subst h2
        simp [btreeInsert, h1, btreeLookup, h]
      · simp [btreeInsert, h1, h2, btreeLookup, ih]

theorem btreeContainsKey_insert_iff (k k2 : String) (v2 : AgentProfile)
    (m : List (String × AgentProfile)) :
    btreeContainsKey (btreeInsert k2 v2 m) k = true ↔
      k2 = k ∨ btreeContainsKey m k = true := by
  induction m with
  | nil => simp [btreeInsert, btreeContainsKey]
  | cons p rest ih =>
    obtain ⟨k3, v3⟩ := p
    by_cases h1 : k2 < k3
    · simp [btreeInsert, h1, btreeContainsKey, List.any_cons, or_assoc]
    · by_cases h2 : k2 = k3
      · subst h2
        simp only [btreeInsert, if_neg h1, if_pos rfl]
        simp [btreeContainsKey, List.any_cons]
      · simp only [btreeInsert, if_neg h1, if_neg h2]
        simp only [btreeContainsKey, List.any_cons] at ih ⊢
        simp only [Bool.or_eq_true] at ih ⊢
        rw [ih]
        tauto

theorem btreeContainsKey_foldl_iff (l : List (String × AgentProfile)) :
    ∀ (m : List (String × AgentProfile)) (k : String),
      btreeContainsKey (l.foldl (fun m p => btreeInsert p.1 p.2 m) m) k = true ↔
        btreeContainsKey m k = true ∨ k ∈ l.map Prod.fst := by
  induction l with
  | nil => intro m k; simp
  | cons p rest ih =>
    intro m k
    simp only [List.foldl_cons, List.map_cons, List.mem_cons]
    rw [ih, btreeContainsKey_insert_iff]
    constructor
    · rintro (⟨h | h⟩ | h)
      · exact Or.inr (Or.inl h.symm)
      · exact Or.inl h
      · exact Or.inr (Or.inr h)
    · rintro (h | h | h)
      · exact Or.inl (Or.inr h)
      · exact Or.inl (Or.inl h.symm)
      · exact Or.inr h

theorem btreeContainsKey_fromIter_iff (l : List (String × AgentProfile))
    (k : String) :
    btreeContainsKey (btreeFromIter l) k = true ↔ k ∈ l.map Prod.fst := by
  rw [btreeFromIter, btreeContainsKey_foldl_iff]
  simp [btreeContainsKey]

theorem btreeLookup_foldl_of_not_mem (l : List (String × AgentProfile)) :
    ∀ (m : List (String × AgentProfile)) (k : String),
      k ∉ l.map Prod.fst →
      btreeLookup (l.foldl (fun m p => btreeInsert p.1 p.2 m) m) k =
        btreeLookup m k := by
  induction l with
  | nil => intro m k _; rfl
  | cons p rest ih =>
    intro m k hk
    simp only [List.map_cons, List.mem_cons, not_or] at hk
    simp only [List.foldl_cons]
    rw [ih _ _ hk.2, btreeInsert_lookup_ne _ _ _ _ hk.1]

theorem btreeLookup_foldl_of_mem (l : List (String × AgentProfile)) :
    ∀ (m : List (String × AgentProfile)) (k : String) (v : AgentProfile),
      (k, v) ∈ l → (l.map Prod.fst).Nodup →
      btreeLookup (l.foldl (fun m p => btreeInsert p.1 p.2 m) m) k = some v := by
  induction l with
  | nil => intro m k v h _; exact absurd h (List.not_mem_nil _)
  | cons p rest ih =>
    intro m k v hmem hnodup
    simp only [List.map_cons, List.nodup_cons] at hnodup
    rcases List.mem_cons.mp hmem with heq | hrest
    · subst heq
      simp only [List.foldl_cons]
      rw [btreeLookup_foldl_of_not_mem rest _ k hnodup.1]
      exact btreeInsert_lookup_self k v m
    · simp only [List.foldl_cons]
      exact ih _ _ _ hrest hnodup.2

theorem mem_btreeInsert (q : String × AgentProfile) (k : String)
    (v : AgentProfile) (m : List (String × AgentProfile))
    (h : q ∈ btreeInsert k v m) : q = (k, v) ∨ q ∈ m := by
  induction m with
  | nil => simpa [btreeInsert] using h
  | cons p rest ih =>
    obtain ⟨k2, v2⟩ := p
    by_cases h1 : k < k2
    · simp only [btreeInsert, if_pos h1] at h
      simpa using h
    · by_cases h2 : k = k2
      · simp only [btreeInsert, if_neg h1, if_pos h2] at h
        rcases List.mem_cons.mp h with heq | hm
        · exact Or.inl heq
        · exact Or.inr (List.mem_cons.mpr (Or.inr hm))
      · simp only [btreeInsert, if_neg h1, if_neg h2] at h
        rcases List.mem_cons.mp h with heq | hm
        · exact Or.inr (List.mem_cons.mpr (Or.inl heq))
        · rcases ih hm with heq | hm2
          · exact Or.inl heq
          · exact Or.inr (List.mem_cons.mpr (Or.inr hm2))

theorem btreeInsert_pairwise (k : String) (v : AgentProfile)
    (m : List (String × AgentProfile))
    (h : List.Pairwise (fun a b => a.1 < b.1) m) :
    List.Pairwise (fun a b => a.1 < b.1) (btreeInsert k v m) := by
  induction m with
  | nil => simp [btreeInsert]
  | cons p rest ih =>
    obtain ⟨k2, v2⟩ := p
    obtain ⟨hp, hrest⟩ := List.pairwise_cons.mp h
    by_cases h1 : k < k2
    · simp only [btreeInsert, if_pos h1]
      refine List.pairwise_cons.mpr ⟨?_, h⟩
      intro q hq
      rcases List.mem_cons.mp hq with rfl | hq2
      · exact h1
      · exact lt_trans h1 (hp q hq2)
    · by_cases h2 : k = k2
      · simp only [btreeInsert, if_neg h1, if_pos h2]
        refine List.pairwise_cons.mpr ⟨?_, hrest⟩
        intro q hq
        exact h2 ▸ hp q hq
      · simp only [btreeInsert, if_neg h1, if_neg h2]
        refine List.pairwise_cons.mpr ⟨?_, ih hrest⟩
        intro q hq
        have hk2k : k2 < k := lt_of_le_of_ne (le_of_not_lt h1) (Ne.symm h2)
        rcases mem_btreeInsert q k v rest hq with rfl | hq2
        · exact hk2k
        · exact hp q hq2

theorem btreeFromIter_pairwise (l : List (String × AgentProfile)) :
    List.Pairwise (fun a b => a.1 < b.1) (btreeFromIter l) := by
  have aux : ∀ (l2 m : List (String × AgentProfile)),
      List.Pairwise (fun a b => a.1 < b.1) m →
      List.Pairwise (fun a b => a.1 < b.1)
        (l2.foldl (fun m p => btreeInsert p.1 p.2 m) m) := by
    intro l2
    induction l2 with
    | nil => intro m h; exact h
    | cons p rest ih =>
      intro m h
      exact ih _ (btreeInsert_pairwise p.1 p.2 m h)
  exact aux l [] List.Pairwise.nil

/-- C2: profile resolution inserts the built-in read-only and code-writer
profiles when the user mapping lacks those ids, preserves every user-supplied
entry unchanged (a user entry under a built-in id shadows the built-in), and
returns a mapping ordered strictly by id. -/
theorem refresh_profiles_spec (userProfiles : List (String × AgentProfile))
    (hnodup : (userProfiles.map Prod.fst).Nodup) :
    ("read-only" ∉ userProfiles.map Prod.fst →
        btreeLookup (refresh_profiles userProfiles) "read-only"
          = some AgentProfile.read_only)
    ∧ ("code-writer" ∉ userProfiles.map Prod.fst →
        btreeLookup (refresh_profiles userProfiles) "code-writer"
          = some AgentProfile.code_writer)
    ∧ (∀ (k : String) (v : AgentProfile), (k, v) ∈ userProfiles →
        btreeLookup (refresh_profiles userProfiles) k = some v)
    ∧ List.Pairwise (fun a b => a.1 < b.1) (refresh_profiles userProfiles) := by
  refine ⟨?_, ?_, ?_, ?_⟩
  · intro h
    have hc1 : ¬ (btreeContainsKey (btreeFromIter userProfiles) "read-only" = true) :=
      fun hc => h ((btreeContainsKey_fromIter_iff _ _).mp hc)
    simp only [refresh_profiles, if_neg hc1]
    by_cases hc2 : btreeContainsKey
        (btreeInsert "read-only" AgentProfile.read_only (btreeFromIter userProfiles))
        "code-writer" = true
    · rw [if_pos hc2]
      exact btreeInsert_lookup_self _ _ _
    · rw [if_neg hc2]
      rw [btreeInsert_lookup_ne _ _ _ _ (by decide)]
      exact btreeInsert_lookup_self _ _ _
  · intro h
    have hbasecw : ¬ (btreeContainsKey (btreeFromIter userProfiles) "code-writer" = true) :=
      fun hc => h ((btreeContainsKey_fromIter_iff _ _).mp hc)
    by_cases hc1 : btreeContainsKey (btreeFromIter userProfiles) "read-only" = true
    · simp only [refresh_profiles, if_pos hc1, if_neg hbasecw]
      exact btreeInsert_lookup_self _ _ _
    · have hc2 : ¬ (btreeContainsKey
          (btreeInsert "read-only" AgentProfile.read_only (btreeFromIter userProfiles))
          "code-writer" = true) := by
        rw [btreeContainsKey_insert_iff]
        rintro (heq | hc)
        · exact absurd heq (by decide)
        · exact hbasecw hc
      simp only [refresh_profiles, if_neg hc1, if_neg hc2]
      exact btreeInsert_lookup_self _ _ _
  · intro k v hkv
    have hkin : k ∈ userProfiles.map Prod.fst := List.mem_map.mpr ⟨(k, v), hkv, rfl⟩
    have hbaselookup : btreeLookup (btreeFromIter userProfiles) k = some v :=
      btreeLookup_foldl_of_mem userProfiles [] k v hkv hnodup
    by_cases hc1 : btreeContainsKey (btreeFromIter userProfiles) "read-only" = true
    · by_cases hc2 : btreeContainsKey (btreeFromIter userProfiles) "code-writer" = true
      · simp only [refresh_profiles, if_pos hc1, if_pos hc2]
        exact hbaselookup
      · have hknecw : k ≠ "code-writer" := fun he =>
          hc2 ((btreeContainsKey_fromIter_iff _ _).mpr (he ▸ hkin))
        simp only [refresh_profiles, if_pos hc1, if_neg hc2]
        rw [btreeInsert_lookup_ne _ _ _ _ hknecw]
        exact hbaselookup
    · have hknero : k ≠ "read-only" := fun he =>
        hc1 ((btreeContainsKey_fromIter_iff _ _).mpr (he ▸ hkin))
      by_cases hc2 : btreeContainsKey
          (btreeInsert "read-only" AgentProfile.read_only (btreeFromIter userProfiles))
          "code-writer" = true
      · simp only [refresh_profiles, if_neg hc1, if_pos hc2]
        rw [btreeInsert_lookup_ne _ _ _ _ hknero]
        exact hbaselookup
      · have hknecw : k ≠ "code-writer" := by
          intro he
          apply hc2
          rw [btreeContainsKey_insert_iff]
          exact Or.inr ((btreeContainsKey_fromIter_iff _ _).mpr (he ▸ hkin))
        simp only [refresh_profiles, if_neg hc1, if_neg hc2]
        rw [btreeInsert_lookup_ne _ _ _ _ hknecw,
          btreeInsert_lookup_ne _ _ _ _ hknero]
        exact hbaselookup
  · have hp := btreeFromIter_pairwise userProfiles
    by_cases hc1 : btreeContainsKey (btreeFromIter userProfiles) "read-only" = true
    · by_cases hc2 : btreeContainsKey (btreeFromIter userProfiles) "code-writer" = true
      · simp only [refresh_profiles, if_pos hc1, if_pos hc2]
        exact hp
      · simp only [refresh_profiles, if_pos hc1, if_neg hc2]
        exact btreeInsert_pairwise _ _ _ hp
    · by_cases hc2 : btreeContainsKey
          (btreeInsert "read-only" AgentProfile.read_only (btreeFromIter userProfiles))
          "code-writer" = true
      · simp only [refresh_profiles, if_neg hc1, if_pos hc2]
        exact btreeInsert_pairwise _ _ _ hp
      · simp only [refresh_profiles, if_neg hc1, if_neg hc2]
        exact btreeInsert_pairwise _ _ _ (btreeInsert_pairwise _ _ _ hp)

theorem refresh_profiles_spec_witness :
    (([("custom", ({ name := "X", tools := [] } : AgentProfile))].map Prod.fst).Nodup)
    ∧ ("read-only" ∉
        [("custom", ({ name := "X", tools := [] } : AgentProfile))].map Prod.fst)
    ∧ btreeLookup
        (refresh_profiles [("custom", { name := "X", tools := [] })]) "read-only"
      = some AgentProfile.read_only :=
  ⟨by decide, by decide,
    (refresh_profiles_spec [("custom", { name := "X", tools := [] })]
      (by decide)).1 (by decide)⟩
